import Mathlib

/-!
Shallow embedding of the booking core of `viewing_bot.py` (a Slack bot that
manages reservations of a single viewing room) together with proofs about the
spec's claims.

The bookings table (`CREATE TABLE bookings (id INTEGER PRIMARY KEY, start_time
INTEGER NOT NULL, end_time INTEGER NOT NULL, description TEXT NOT NULL,
user_id TEXT NOT NULL)`) is modelled as a `List Booking` in rowid order.
`fetchone` on an un-ordered `SELECT` is modelled as `List.find?` (first row in
rowid order), the auto-assigned `INTEGER PRIMARY KEY` as one plus the maximum
existing id, and the handlers' database effects as pure functions from the row
list to a new row list.  Times are epoch seconds (`Int`), exactly as stored.
-/

namespace ViewingBot

/-- A row of the `bookings` table: columns `id`, `start_time`, `end_time`,
`description`, `user_id` in that order. -/
structure Booking where
  id : Int
  start_time : Int
  end_time : Int
  description : String
  user_id : String
deriving DecidableEq

/-- Result of `sanitize_booking_input`: the dictionary with keys `start_time`,
`duration`, `end_time`, `description`, `user_id`. -/
structure BookingInformation where
  start_time : Int
  duration : Int
  end_time : Int
  description : String
  user_id : String
deriving DecidableEq

/-- Message sent with `chat_postMessage`: a channel (the Slack user id the
handler writes to) and a text. -/
structure ChatMessage where
  channel : String
  text : String
deriving DecidableEq

/-- Error raised by `add_booking` when the candidate overlaps an existing
booking; `python`: `OverlappingBookingError(error_message)`. -/
def overlapCreateMessage (description : String) : String :=
  "A booking called \x27" ++ description ++ "\x27 already exists during that time slot!"

/-- Error text `process_extending` acks when the id is absent. -/
def notFoundMessage : String := "Booking not found."

/-- Error text `process_extending` acks when the extension would overlap. -/
def overlapExtendMessage : String :=
  "Cannot extend booking as it overlaps with another booking."

/-- Success text posted by `process_unbooking`. -/
def removedMessage : String := "Successfully removed booking."

/-- Success text posted by `process_extending`. -/
def extendedMessage : String := "Successfully extended booking."

/-- The two error shapes of `process_extending`: the "Booking not found." ack
and the overlap ack (the latter corresponds to the spec's
`OverlappingBooking`). -/
inductive ExtendingError where
  | notFound (message : String)
  | overlappingBooking (message : String)
deriving DecidableEq

/-- SQLite's id assignment for `INTEGER PRIMARY KEY`: one larger than the
largest id in the table (1 for an empty table; ids produced by this program
are always positive). -/
def newId (rows : List Booking) : Int :=
  rows.foldr (fun b acc => max b.id acc) 0 + 1

/-- Row filter of the overlap query in `add_booking`:
`SELECT * FROM bookings WHERE NOT (start_time >= ? OR end_time <= ?)` with the
parameters `(candidate_end_time, candidate_start_time)`. -/
def createOverlapsB (candidate_end_time candidate_start_time : Int) (b : Booking) : Bool :=
  !(decide (b.start_time ≥ candidate_end_time) || decide (b.end_time ≤ candidate_start_time))

/-- Row filter of the overlap query in `process_extending`:
`SELECT * FROM bookings WHERE id != ? AND NOT (start_time >= ? OR end_time <= ?)`
with the parameters `(extending_id, new_end_time, booking_start_time)`. -/
def extendOverlapsB (extending_id new_end_time booking_start_time : Int) (b : Booking) : Bool :=
  decide (¬ b.id = extending_id) &&
    !(decide (b.start_time ≥ new_end_time) || decide (b.end_time ≤ booking_start_time))

/-- Embedding of `sanitize_booking_input`: builds the booking dictionary and
computes `end_time = start_time + duration * 60 - 1`. -/
def sanitize_booking_input (selected_date_time : Int) (duration : Int)
    (description : String) (user_id : String) : BookingInformation :=
  { start_time := selected_date_time
    duration := duration
    end_time := selected_date_time + duration * 60 - 1
    description := description
    user_id := user_id }

/-- Embedding of `add_booking`: `fetchone` the first row matching the overlap
query; if one exists raise `OverlappingBookingError` naming its description,
otherwise `INSERT` the new row (id auto-assigned) and commit. -/
def add_booking (rows : List Booking) (info : BookingInformation) :
    Except String (List Booking) :=
  match rows.find? (createOverlapsB info.end_time info.start_time) with
  | some existing_booking => .error (overlapCreateMessage existing_booking.description)
  | none =>
      .ok (rows ++ [⟨newId rows, info.start_time, info.end_time,
        info.description, info.user_id⟩])

/-- Embedding of the `process_booking` handler's effect: on
`OverlappingBookingError` it acks the error and the table is unchanged;
otherwise the insert commits. Returns the table afterwards and the error text,
if any. -/
def process_booking (rows : List Booking) (info : BookingInformation) :
    List Booking × Option String :=
  match add_booking rows info with
  | .error e => (rows, some e)
  | .ok rows2 => (rows2, none)

/-- Embedding of the `process_unbooking` handler:
`DELETE FROM bookings WHERE id = ?`, commit, ack, and post the success message
to the requesting user's channel.  The delete is unconditional. -/
def process_unbooking (body_user_id : String) (rows : List Booking)
    (unbooking_id : Int) : List Booking × ChatMessage :=
  (rows.filter (fun b => !decide (b.id = unbooking_id)),
    ⟨body_user_id, removedMessage⟩)

/-- Embedding of the database logic of `process_extending`: fetch the booking
by id (ack "Booking not found." when absent), compute
`new_end_time = booking.end_time + extension_minutes * 60`, run the overlap
query excluding the booking itself, and either ack the overlap error (no
write) or `UPDATE bookings SET end_time = ? WHERE id = ?`. -/
def process_extending_core (rows : List Booking) (extending_id : Int)
    (extension_minutes : Int) : Except ExtendingError (List Booking) :=
  match rows.find? (fun b => decide (b.id = extending_id)) with
  | none => .error (.notFound notFoundMessage)
  | some booking =>
      let extension_in_seconds := extension_minutes * 60
      let new_end_time := booking.end_time + extension_in_seconds
      match rows.find? (extendOverlapsB extending_id new_end_time booking.start_time) with
      | some _ => .error (.overlappingBooking overlapExtendMessage)
      | none =>
          .ok (rows.map (fun b =>
            if b.id = extending_id then { b with end_time := new_end_time } else b))

/-- Embedding of the whole `process_extending` handler: on either error the
table is unchanged and no chat message is posted; on success the update
commits and the success message goes to the requesting user's channel. -/
def process_extending (body_user_id : String) (rows : List Booking)
    (extending_id : Int) (extension_minutes : Int) :
    List Booking × Option ChatMessage :=
  match process_extending_core rows extending_id extension_minutes with
  | .error _ => (rows, none)
  | .ok rows2 => (rows2, some ⟨body_user_id, extendedMessage⟩)

/-- Embedding of `get_all_future_user_bookings`:
`SELECT * FROM bookings WHERE user_id = ? AND end_time > ? ORDER BY start_time ASC`. -/
def get_all_future_user_bookings (rows : List Booking) (user_id : String)
    (current_time : Int) : List Booking :=
  List.insertionSort (fun a b => a.start_time ≤ b.start_time)
    (rows.filter (fun b => decide (b.user_id = user_id) && decide (b.end_time > current_time)))

/-- The three optional slots built by `bookings_to_view_json` (slot contents
are modelled as the underlying booking row; the Python code stores the
human-readable time string and the description derived from that row). -/
structure ViewInformation where
  current_booking : Option Booking
  first_coming_booking : Option Booking
  second_coming_booking : Option Booking
deriving DecidableEq

/-- Python's `current_timestamp in range(start_time, end_time)`:
`start_time ≤ now < end_time` (the right bound is exclusive). -/
def inRangeB (current_timestamp start_time end_time : Int) : Bool :=
  decide (start_time ≤ current_timestamp) && decide (current_timestamp < end_time)

/-- One iteration of the loop body of `bookings_to_view_json`. -/
def viewStep (current_timestamp : Int) (info : ViewInformation) (b : Booking) :
    ViewInformation :=
  if info.current_booking.isNone && inRangeB current_timestamp b.start_time b.end_time then
    { info with current_booking := some b }
  else if info.first_coming_booking.isNone then
    { info with first_coming_booking := some b }
  else if info.second_coming_booking.isNone then
    { info with second_coming_booking := some b }
  else info

/-- Embedding of `bookings_to_view_json`: starting from three empty slots,
fold the loop body over the booking list (the early return on an empty list
coincides with the fold over `[]`). -/
def bookings_to_view_json (current_timestamp : Int) (current_three_bookings : List Booking) :
    ViewInformation :=
  current_three_bookings.foldl (viewStep current_timestamp) ⟨none, none, none⟩

/-- Closed-interval intersection exactly as worded by the spec:
two intervals intersect iff `NOT (a.start > b.end OR a.end < b.start)`.
(Modelled from the spec for comparison with the code's overlap queries.) -/
def specClosedIntersect (a b : Booking) : Prop :=
  ¬(a.start_time > b.end_time ∨ a.end_time < b.start_time)

instance (a b : Booking) : Decidable (specClosedIntersect a b) := by
  unfold specClosedIntersect; infer_instance

/-- Closed-interval containment of an instant, the spec's reading of "the
booking's interval contains `now`" (inclusive bounds). (Modelled from the
spec for comparison with the code's `range` containment.) -/
def specClosedContains (now : Int) (b : Booking) : Bool :=
  decide (b.start_time ≤ now) && decide (now ≤ b.end_time)

/-- Strict interval overlap: the two bookings share more than a single
boundary instant under the code's queries, i.e.
`a.start_time < b.end_time AND b.start_time < a.end_time`. -/
def strictOverlap (a b : Booking) : Prop :=
  a.start_time < b.end_time ∧ b.start_time < a.end_time

instance (a b : Booking) : Decidable (strictOverlap a b) := by
  unfold strictOverlap; infer_instance

/-- The mutating operations of the booking engine reachable from the Slack
handlers: create (through `sanitize_booking_input` then `add_booking`) and
extend (`process_extending`). -/
inductive Op where
  | create (selected_date_time duration : Int) (description user_id : String)
  | extend (extending_id extension_minutes : Int)

/-- Apply one operation to the table; `none` when the operation fails. -/
def applyOp (rows : List Booking) : Op → Option (List Booking)
  | .create s d desc u => (add_booking rows (sanitize_booking_input s d desc u)).toOption
  | .extend i m => (process_extending_core rows i m).toOption

/-- Run a sequence of operations, failing as soon as one fails. -/
def runOps (rows : List Booking) : List Op → Option (List Booking)
  | [] => some rows
  | op :: ops =>
      match applyOp rows op with
      | none => none
      | some rows2 => runOps rows2 ops

/-- List of the slot contents of a view snapshot that are filled, in slot
order (current, first coming, second coming). -/
def filledSlots (v : ViewInformation) : List Booking :=
  v.current_booking.toList ++ v.first_coming_booking.toList ++
    v.second_coming_booking.toList

/-- Store invariant maintained by the mutating operations: no two rows overlap
strictly and all ids are distinct (the latter is what the `INTEGER PRIMARY
KEY` column guarantees). -/
def Inv (rows : List Booking) : Prop :=
  rows.Pairwise (fun a b => ¬ strictOverlap a b) ∧
    rows.Pairwise (fun a b => a.id ≠ b.id)

theorem id_le_foldr_max (rows : List Booking) :
    ∀ b ∈ rows, b.id ≤ rows.foldr (fun b acc => max b.id acc) 0 := by
  induction rows with
  | nil => simp
  | cons a l ih =>
    intro b hb
    rcases List.mem_cons.mp hb with h | h
    · subst h; simp only [List.foldr_cons]; exact le_max_left _ _
    · exact le_trans (ih b h) (le_max_right _ _)

theorem newId_gt (rows : List Booking) : ∀ b ∈ rows, b.id < newId rows := by
  intro b hb
  have h := id_le_foldr_max rows b hb
  unfold newId
  omega

theorem id_unique {rows : List Booking}
    (h : rows.Pairwise (fun a b => a.id ≠ b.id)) :
    ∀ x ∈ rows, ∀ y ∈ rows, x.id = y.id → x = y := by
  induction rows with
  | nil => simp
  | cons a l ih =>
    rcases List.pairwise_cons.mp h with ⟨ha, hl⟩
    intro x hx y hy hxy
    rcases List.mem_cons.mp hx with h1 | h1
    · rcases List.mem_cons.mp hy with h2 | h2
      · exact h1.trans h2.symm
      · subst h1; exact absurd hxy (ha y h2)
    · rcases List.mem_cons.mp hy with h2 | h2
      · subst h2; exact absurd hxy.symm (ha x h1)
      · exact ih hl x h1 y h2 hxy

theorem add_booking_inv {rows rows2 : List Booking} {info : BookingInformation}
    (hInv : Inv rows) (h : add_booking rows info = .ok rows2) : Inv rows2 := by
  unfold add_booking at h
  cases hfind : rows.find? (createOverlapsB info.end_time info.start_time) with
  | some b => rw [hfind] at h; exact absurd h (by simp)
  | none =>
    rw [hfind] at h
    have hrows2 : rows2 = rows ++ [⟨newId rows, info.start_time, info.end_time,
        info.description, info.user_id⟩] := by
      cases h; rfl
    subst hrows2
    have hnone := List.find?_eq_none.mp hfind
    constructor
    · refine List.pairwise_append.mpr ⟨hInv.1, List.pairwise_singleton _ _, ?_⟩
      intro a ha c hc
      rcases List.mem_singleton.mp hc with rfl
      have hno := hnone a ha
      simp only [createOverlapsB, Bool.not_eq_true', Bool.not_eq_false,
        Bool.or_eq_true, decide_eq_true_eq] at hno
      simp only [strictOverlap, not_and, not_lt]
      intro h1
      omega
    · refine List.pairwise_append.mpr ⟨hInv.2, List.pairwise_singleton _ _, ?_⟩
      intro a ha c hc
      rcases List.mem_singleton.mp hc with rfl
      have := newId_gt rows a ha
      intro hid
      simp only at hid
      omega

theorem process_extending_core_inv {rows rows2 : List Booking}
    {extending_id extension_minutes : Int} (hInv : Inv rows)
    (h : process_extending_core rows extending_id extension_minutes = .ok rows2) :
    Inv rows2 := by
  unfold process_extending_core at h
  cases hfind : rows.find? (fun b => decide (b.id = extending_id)) with
  | none => rw [hfind] at h; exact absurd h (by simp)
  | some b =>
    rw [hfind] at h
    simp only at h
    cases hov : rows.find?
        (extendOverlapsB extending_id (b.end_time + extension_minutes * 60) b.start_time) with
    | some c => rw [hov] at h; exact absurd h (by simp)
    | none =>
      rw [hov] at h
      have hrows2 : rows2 = rows.map (fun x =>
          if x.id = extending_id then
            { x with end_time := b.end_time + extension_minutes * 60 } else x) := by
        cases h; rfl
      subst hrows2
      have hb_mem : b ∈ rows := List.mem_of_find?_eq_some hfind
      have hb_id : b.id = extending_id := by
        have := List.find?_some hfind
        simpa using this
      have hover := List.find?_eq_none.mp hov
      have huniq := id_unique hInv.2
      have hid_pres : ∀ x : Booking,
          (if x.id = extending_id then
            { x with end_time := b.end_time + extension_minutes * 60 } else x).id = x.id := by
        intro x
        by_cases hx : x.id = extending_id <;> simp [hx]
      constructor
      · rw [List.pairwise_map]
        refine List.Pairwise.imp_of_mem ?_ (hInv.1.and hInv.2)
        intro x y hx hy hxy
        rcases hxy with ⟨hno, hne⟩
        have hoverx := hover x hx
        have hovery := hover y hy
        simp only [extendOverlapsB, Bool.and_eq_true, Bool.not_eq_true',
          Bool.not_eq_false, Bool.or_eq_true, decide_eq_true_eq, not_and] at hoverx hovery
        by_cases hxid : x.id = extending_id
        · have hxb : x = b := huniq x hx b hb_mem (hxid.trans hb_id.symm)
          subst hxb
          have hyid : ¬ y.id = extending_id := fun hy2 => hne (hxid.trans hy2.symm)
          have hy2 := hovery hyid
          rw [if_pos hxid, if_neg hyid]
          simp only [strictOverlap, not_and, not_lt]
          intro h1
          omega
        · by_cases hyid : y.id = extending_id
          · have hyb : y = b := huniq y hy b hb_mem (hyid.trans hb_id.symm)
            subst hyb
            have hx2 := hoverx hxid
            rw [if_neg hxid, if_pos hyid]
            simp only [strictOverlap, not_and, not_lt]
            intro h1
            omega
          · rw [if_neg hxid, if_neg hyid]
            exact hno
      · rw [List.pairwise_map]
        refine hInv.2.imp ?_
        intro x y hxy
        rw [hid_pres x, hid_pres y]
        exact hxy

theorem applyOp_inv {rows rows2 : List Booking} {op : Op} (hInv : Inv rows)
    (h : applyOp rows op = some rows2) : Inv rows2 := by
  cases op with
  | create s d desc u =>
    simp only [applyOp] at h
    cases hab : add_booking rows (sanitize_booking_input s d desc u) with
    | error e => rw [hab] at h; exact absurd h (by simp [Except.toOption])
    | ok r =>
      rw [hab] at h
      simp only [Except.toOption, Option.some.injEq] at h
      subst h
      exact add_booking_inv hInv hab
  | extend i m =>
    simp only [applyOp] at h
    cases hab : process_extending_core rows i m with
    | error e => rw [hab] at h; exact absurd h (by simp [Except.toOption])
    | ok r =>
      rw [hab] at h
      simp only [Except.toOption, Option.some.injEq] at h
      subst h
      exact process_extending_core_inv hInv hab

theorem runOps_inv (ops : List Op) :
    ∀ rows rows2 : List Booking, Inv rows → runOps rows ops = some rows2 → Inv rows2 := by
  induction ops with
  | nil =>
    intro rows rows2 h hr
    simp only [runOps, Option.some.injEq] at hr
    subst hr
    exact h
  | cons op ops ih =>
    intro rows rows2 h hr
    unfold runOps at hr
    cases hap : applyOp rows op with
    | none => rw [hap] at hr; exact absurd hr (by simp)
    | some rows1 =>
      rw [hap] at hr
      exact ih rows1 rows2 (applyOp_inv h hap) hr

/-- Claim C1, as stated, is false: a sequence of two successful creates can
leave two bookings in the store whose closed intervals intersect in the
spec's sense (`NOT (a.start > b.end OR a.end < b.start)`).  Concretely, a
1-minute booking at 141 (interval `[141,200]`) and a subsequent 1-minute
booking at 200 (interval `[200,259]`) are both admitted even though both
intervals contain second 200, because `add_booking`'s query only rejects
`start_time < candidate_end AND end_time > candidate_start`. -/
theorem C1_counterexample :
    ¬ (∀ (ops : List Op) (rows : List Booking), runOps [] ops = some rows →
        rows.Pairwise (fun a b => ¬ specClosedIntersect a b)) := by
  intro h
  have h2 := h [.create 141 1 "A" "u", .create 200 1 "B" "u"]
    [⟨1, 141, 200, "A", "u"⟩, ⟨2, 200, 259, "B", "u"⟩] (by decide)
  rcases List.pairwise_cons.mp h2 with ⟨hfst, _⟩
  exact hfst ⟨2, 200, 259, "B", "u"⟩ (by simp) (by decide)

/-- Claim C1 (amended): for every sequence of create and extend operations in
which each operation succeeds, the resulting bookings store never contains
two distinct bookings whose intervals strictly overlap, where two intervals
strictly overlap iff `NOT (a.start >= b.end OR a.end <= b.start)` (that is,
they share more than a single boundary second). -/
theorem C1_no_strict_overlap_invariant (ops : List Op) (rows : List Booking)
    (h : runOps [] ops = some rows) :
    rows.Pairwise (fun a b => ¬ strictOverlap a b) :=
  (runOps_inv ops [] rows ⟨List.Pairwise.nil, List.Pairwise.nil⟩ h).1

/-- Witness for C1 at a concrete successful run: creating the 1-minute
bookings `[100,159]` and `[160,219]` leaves a store with no strict overlap. -/
theorem C1_no_strict_overlap_invariant_witness :
    runOps [] [.create 100 1 "A" "u", .create 160 1 "B" "u"] =
      some [⟨1, 100, 159, "A", "u"⟩, ⟨2, 160, 219, "B", "u"⟩] ∧
    List.Pairwise (fun a b => ¬ strictOverlap a b)
      [⟨1, 100, 159, "A", "u"⟩, ⟨2, 160, 219, "B", "u"⟩] :=
  ⟨by decide, C1_no_strict_overlap_invariant
    [.create 100 1 "A" "u", .create 160 1 "B" "u"] _ (by decide)⟩

/-- Claim C3: `end_time` is always computed as
`requested_start + duration_minutes * 60 - 1`, and a booking ending at second
`S` together with one starting at second `S + 1` are admitted together: the
second create succeeds and both bookings are in the store.  The claim's
instance is `s1 = 100, S = 159, d = 1` (booking `[100,159]`, then start
`160`). -/
theorem C3_adjacency_is_not_overlap (s1 S d : Int) (desc1 user1 desc2 user2 : String) :
    (sanitize_booking_input (S + 1) d desc2 user2).end_time = (S + 1) + d * 60 - 1 ∧
    add_booking [⟨1, s1, S, desc1, user1⟩] (sanitize_booking_input (S + 1) d desc2 user2) =
      .ok [⟨1, s1, S, desc1, user1⟩, ⟨2, S + 1, S + 1 + d * 60 - 1, desc2, user2⟩] := by
  constructor
  · rfl
  · have hp : createOverlapsB (S + 1 + d * 60 - 1) (S + 1)
        (⟨1, s1, S, desc1, user1⟩ : Booking) = false := by
      have h1 : (S : Int) ≤ S + 1 := by omega
      simp [createOverlapsB, h1]
    simp [add_booking, sanitize_booking_input, hp, newId]

/-- Claim C4: when the candidate's interval conflicts with an existing booking
(the overlap query returns a row), create fails with the
`OverlappingBookingError` message naming that conflicting booking's
description and the store is unchanged; when no row conflicts, the booking is
inserted. -/
theorem C4_create_conflict_rejection (rows : List Booking) (info : BookingInformation) :
    (∀ b, rows.find? (createOverlapsB info.end_time info.start_time) = some b →
      b ∈ rows ∧ createOverlapsB info.end_time info.start_time b = true ∧
      process_booking rows info = (rows, some (overlapCreateMessage b.description))) ∧
    ((∀ b ∈ rows, ¬ createOverlapsB info.end_time info.start_time b = true) →
      process_booking rows info =
        (rows ++ [⟨newId rows, info.start_time, info.end_time, info.description,
          info.user_id⟩], none)) := by
  constructor
  · intro b hb
    refine ⟨List.mem_of_find?_eq_some hb, List.find?_some hb, ?_⟩
    simp [process_booking, add_booking, hb]
  · intro hnone
    have hf : rows.find? (createOverlapsB info.end_time info.start_time) = none :=
      List.find?_eq_none.mpr hnone
    simp [process_booking, add_booking, hf]

/-- Witness for C4 at the claim's instance: after creating `[100,200]`,
creating `[150,250]` fails with the message naming the first booking's
description and the store still holds exactly one booking; a non-conflicting
create inserts. -/
theorem C4_create_conflict_rejection_witness :
    process_booking [⟨1, 100, 200, "first viewing", "alice"⟩]
        ⟨150, 2, 250, "second viewing", "bob"⟩ =
      ([⟨1, 100, 200, "first viewing", "alice"⟩], some (overlapCreateMessage "first viewing")) ∧
    [(⟨1, 100, 200, "first viewing", "alice"⟩ : Booking)].length = 1 ∧
    process_booking [⟨1, 100, 200, "first viewing", "alice"⟩]
        ⟨300, 1, 359, "third viewing", "bob"⟩ =
      ([⟨1, 100, 200, "first viewing", "alice"⟩, ⟨2, 300, 359, "third viewing", "bob"⟩], none) :=
  ⟨((C4_create_conflict_rejection _ _).1 ⟨1, 100, 200, "first viewing", "alice"⟩ (by decide)).2.2,
   rfl,
   (C4_create_conflict_rejection _ _).2 (by decide)⟩

/-- Characterization of the extension overlap row filter as a proposition. -/
theorem extendOverlapsB_eq_true {i ne bs : Int} {o : Booking} :
    extendOverlapsB i ne bs o = true ↔
      (¬ o.id = i ∧ o.start_time < ne ∧ bs < o.end_time) := by
  simp only [extendOverlapsB, Bool.and_eq_true, Bool.not_eq_true', Bool.or_eq_false_iff,
    decide_eq_true_eq, decide_eq_false_iff_not, not_or, not_le]

/-- An extend on an absent id acks "Booking not found.". -/
theorem process_extending_core_not_found {rows : List Booking} {i m : Int}
    (hf : rows.find? (fun b => decide (b.id = i)) = none) :
    process_extending_core rows i m = .error (.notFound notFoundMessage) := by
  simp [process_extending_core, hf]

/-- An extend whose grown interval overlaps some other row acks the overlap
error. -/
theorem process_extending_core_conflict {rows : List Booking} {i m : Int} {b : Booking}
    (hf : rows.find? (fun x => decide (x.id = i)) = some b)
    (hc : ∃ o ∈ rows, ¬ o.id = i ∧ o.start_time < b.end_time + m * 60 ∧
      b.start_time < o.end_time) :
    process_extending_core rows i m = .error (.overlappingBooking overlapExtendMessage) := by
  unfold process_extending_core
  rw [hf]
  simp only
  cases hov : rows.find? (extendOverlapsB i (b.end_time + m * 60) b.start_time) with
  | some c => rfl
  | none =>
    rcases hc with ⟨o, ho, hc⟩
    have h2 := List.find?_eq_none.mp hov o ho
    rw [extendOverlapsB_eq_true] at h2
    exact absurd hc h2

/-- An extend whose grown interval overlaps no other row updates exactly the
rows carrying the extended id. -/
theorem process_extending_core_ok_eq {rows : List Booking} {i m : Int} {b : Booking}
    (hf : rows.find? (fun x => decide (x.id = i)) = some b)
    (hnc : ∀ o ∈ rows, ¬(¬ o.id = i ∧ o.start_time < b.end_time + m * 60 ∧
      b.start_time < o.end_time)) :
    process_extending_core rows i m =
      .ok (rows.map (fun o => if o.id = i then
        { o with end_time := b.end_time + m * 60 } else o)) := by
  unfold process_extending_core
  rw [hf]
  simp only
  have hov : rows.find? (extendOverlapsB i (b.end_time + m * 60) b.start_time) = none := by
    apply List.find?_eq_none.mpr
    intro o ho
    rw [extendOverlapsB_eq_true]
    exact hnc o ho
  rw [hov]

/-- When the extend logic errors, the handler acks the error and the table is
left unchanged. -/
theorem process_extending_error_unchanged {u : String} {rows : List Booking} {i m : Int}
    {e : ExtendingError} (h : process_extending_core rows i m = .error e) :
    process_extending u rows i m = (rows, none) := by
  simp [process_extending, h]

/-- Claim C5: extend fails with the not-found error when the id is absent
(store unchanged); otherwise, with `new_end = end_time + extra_minutes * 60`,
it fails with the overlap error and performs no write when the extended
interval conflicts with another row, else it updates the booking to
`new_end`.  In particular, with `[0,99]` and `[200,299]` in the store, any
whole-minute extension of the first reaching `end_time >= 200` fails with the
overlap error, while one staying below 200 succeeds. -/
theorem C5_extend_behaviour :
    (∀ (rows : List Booking) (i m : Int) (u : String), 0 < m →
      (rows.find? (fun x => decide (x.id = i)) = none →
        process_extending_core rows i m = .error (.notFound notFoundMessage) ∧
        process_extending u rows i m = (rows, none)) ∧
      (∀ b, rows.find? (fun x => decide (x.id = i)) = some b →
        ((∃ o ∈ rows, ¬ o.id = i ∧ o.start_time < b.end_time + m * 60 ∧
            b.start_time < o.end_time) →
          process_extending_core rows i m =
            .error (.overlappingBooking overlapExtendMessage) ∧
          process_extending u rows i m = (rows, none)) ∧
        ((∀ o ∈ rows, ¬(¬ o.id = i ∧ o.start_time < b.end_time + m * 60 ∧
            b.start_time < o.end_time)) →
          process_extending_core rows i m =
            .ok (rows.map (fun o => if o.id = i then
              { o with end_time := b.end_time + m * 60 } else o))))) ∧
    (∀ m : Int, 0 < m →
      (200 ≤ 99 + m * 60 →
        process_extending_core [⟨1, 0, 99, "flat", "alice"⟩, ⟨2, 200, 299, "attic", "bob"⟩] 1 m =
          .error (.overlappingBooking overlapExtendMessage)) ∧
      (99 + m * 60 < 200 →
        process_extending_core [⟨1, 0, 99, "flat", "alice"⟩, ⟨2, 200, 299, "attic", "bob"⟩] 1 m =
          .ok [⟨1, 0, 99 + m * 60, "flat", "alice"⟩, ⟨2, 200, 299, "attic", "bob"⟩])) := by
  constructor
  · intro rows i m u hm
    constructor
    · intro hf
      have h1 := process_extending_core_not_found (m := m) hf
      exact ⟨h1, process_extending_error_unchanged h1⟩
    · intro b hf
      constructor
      · intro hc
        have h1 := process_extending_core_conflict hf hc
        exact ⟨h1, process_extending_error_unchanged h1⟩
      · intro hnc
        exact process_extending_core_ok_eq hf hnc
  · intro m hm
    have hf : List.find? (fun x => decide (x.id = 1))
        [(⟨1, 0, 99, "flat", "alice"⟩ : Booking), ⟨2, 200, 299, "attic", "bob"⟩] =
        some ⟨1, 0, 99, "flat", "alice"⟩ := by decide
    constructor
    · intro hge
      apply process_extending_core_conflict hf
      refine ⟨⟨2, 200, 299, "attic", "bob"⟩, by simp, by simp, by simp; omega, by simp⟩
    · intro hlt
      rw [process_extending_core_ok_eq hf ?_]
      · simp
      · intro o ho
        rcases List.mem_cons.mp ho with rfl | ho
        · simp
        · rcases List.mem_cons.mp ho with rfl | ho
          · simp
            omega
          · simp at ho

/-- Witness for C5: concrete extends over the store `[0,99]`, `[200,299]`: a
2-minute extension of booking 1 (new end 219 >= 200) fails with the overlap
error, a 1-minute extension (new end 159 < 200) succeeds, and extending the
absent id 3 fails with the not-found error leaving the store unchanged. -/
theorem C5_extend_behaviour_witness :
    (process_extending_core [⟨1, 0, 99, "flat", "alice"⟩, ⟨2, 200, 299, "attic", "bob"⟩] 1 2 =
      .error (.overlappingBooking overlapExtendMessage)) ∧
    (process_extending_core [⟨1, 0, 99, "flat", "alice"⟩, ⟨2, 200, 299, "attic", "bob"⟩] 1 1 =
      .ok [⟨1, 0, 159, "flat", "alice"⟩, ⟨2, 200, 299, "attic", "bob"⟩]) ∧
    (process_extending_core [⟨1, 0, 99, "flat", "alice"⟩, ⟨2, 200, 299, "attic", "bob"⟩] 3 1 =
      .error (.notFound notFoundMessage) ∧
     process_extending "carol" [⟨1, 0, 99, "flat", "alice"⟩, ⟨2, 200, 299, "attic", "bob"⟩] 3 1 =
      ([⟨1, 0, 99, "flat", "alice"⟩, ⟨2, 200, 299, "attic", "bob"⟩], none)) :=
  ⟨(C5_extend_behaviour.2 2 (by decide)).1 (by decide),
   ((C5_extend_behaviour.2 1 (by decide)).2 (by decide)).trans rfl,
   (C5_extend_behaviour.1 [⟨1, 0, 99, "flat", "alice"⟩, ⟨2, 200, 299, "attic", "bob"⟩]
      3 1 "carol" (by decide)).1 (by decide)⟩

/-- Claim C6: a successful extend of booking id `i` changes only the matching
row and only its `end_time` (grown by `extra_minutes * 60`); its id,
start_time, description and user_id, and every other row, are unchanged.
The id-distinctness hypothesis is the `INTEGER PRIMARY KEY` guarantee. -/
theorem C6_extension_frame (rows rows2 : List Booking) (i m : Int)
    (hids : rows.Pairwise (fun a b => a.id ≠ b.id))
    (h : process_extending_core rows i m = .ok rows2) :
    rows2 = rows.map (fun o => if o.id = i then
      ⟨o.id, o.start_time, o.end_time + m * 60, o.description, o.user_id⟩ else o) := by
  unfold process_extending_core at h
  cases hf : rows.find? (fun b => decide (b.id = i)) with
  | none => rw [hf] at h; exact absurd h (by simp)
  | some b =>
    rw [hf] at h
    simp only at h
    cases hov : rows.find? (extendOverlapsB i (b.end_time + m * 60) b.start_time) with
    | some c => rw [hov] at h; exact absurd h (by simp)
    | none =>
      rw [hov] at h
      have hmap : rows2 = rows.map (fun o => if o.id = i then
          { o with end_time := b.end_time + m * 60 } else o) := by
        cases h; rfl
      subst hmap
      apply List.map_congr_left
      intro a ha
      by_cases hai : a.id = i
      · have hb_mem := List.mem_of_find?_eq_some hf
        have hb_id : b.id = i := by simpa using List.find?_some hf
        have hab : a = b := id_unique hids a ha b hb_mem (hai.trans hb_id.symm)
        subst hab
        rw [if_pos hai]
      · rw [if_neg hai, if_neg hai]

/-- Witness for C6: the successful 1-minute extension of booking 1 over the
store `[0,99]`, `[200,299]` rewrites only booking 1's end_time. -/
theorem C6_extension_frame_witness :
    [(⟨1, 0, 159, "flat", "alice"⟩ : Booking), ⟨2, 200, 299, "attic", "bob"⟩] =
      List.map (fun o => if o.id = 1 then
        (⟨o.id, o.start_time, o.end_time + 1 * 60, o.description, o.user_id⟩ : Booking) else o)
        [⟨1, 0, 99, "flat", "alice"⟩, ⟨2, 200, 299, "attic", "bob"⟩] :=
  C6_extension_frame [⟨1, 0, 99, "flat", "alice"⟩, ⟨2, 200, 299, "attic", "bob"⟩]
    [⟨1, 0, 159, "flat", "alice"⟩, ⟨2, 200, 299, "attic", "bob"⟩] 1 1 (by decide) rfl

/-- Claim C7: cancel always succeeds (the delete is unconditional and the
success message is posted); a present id is removed, other rows are kept,
and when the id is absent the store is unchanged. -/
theorem C7_idempotent_cancel (u : String) (rows : List Booking) (uid : Int) :
    (process_unbooking u rows uid).2 = ⟨u, removedMessage⟩ ∧
    (∀ b ∈ (process_unbooking u rows uid).1, b.id ≠ uid) ∧
    (∀ b ∈ rows, b.id ≠ uid → b ∈ (process_unbooking u rows uid).1) ∧
    ((∀ b ∈ rows, b.id ≠ uid) → (process_unbooking u rows uid).1 = rows) := by
  refine ⟨rfl, ?_, ?_, ?_⟩
  · intro b hb
    have h2 := (List.mem_filter.mp hb).2
    simpa using h2
  · intro b hb hne
    exact List.mem_filter.mpr ⟨hb, by simpa using hne⟩
  · intro habs
    apply List.filter_eq_self.mpr
    intro a ha
    simpa using habs a ha

/-- Witness for C7: cancelling the absent id 2 leaves the one-row store
unchanged and still acks success. -/
theorem C7_idempotent_cancel_witness :
    (process_unbooking "carol" [⟨1, 0, 10, "cellar", "alice"⟩] 2).1 =
      [⟨1, 0, 10, "cellar", "alice"⟩] ∧
    (process_unbooking "carol" [⟨1, 0, 10, "cellar", "alice"⟩] 2).2 =
      ⟨"carol", removedMessage⟩ :=
  ⟨(C7_idempotent_cancel "carol" [⟨1, 0, 10, "cellar", "alice"⟩] 2).2.2.2 (by decide),
   (C7_idempotent_cancel "carol" [⟨1, 0, 10, "cellar", "alice"⟩] 2).1⟩

/-- Claim C10: the store effect of cancel and of extend is a function of the
submitted booking id (and minutes) only — two different requesting users
produce identical resulting stores — and a row whose id is submitted is
deleted regardless of which user owns it. -/
theorem C10_no_ownership_enforcement (u1 u2 : String) (rows : List Booking)
    (uid i m : Int) :
    (process_unbooking u1 rows uid).1 = (process_unbooking u2 rows uid).1 ∧
    (process_extending u1 rows i m).1 = (process_extending u2 rows i m).1 ∧
    (∀ b ∈ rows, b.id = uid → b ∉ (process_unbooking u1 rows uid).1) := by
  refine ⟨rfl, ?_, ?_⟩
  · unfold process_extending
    cases process_extending_core rows i m <;> rfl
  · intro b hb hid hmem
    have h2 := (List.mem_filter.mp hmem).2
    simp [hid] at h2

/-- Witness for C10: user bob deletes the booking owned by alice. -/
theorem C10_no_ownership_enforcement_witness :
    (⟨1, 0, 10, "flat viewing", "alice"⟩ : Booking) ∉
      (process_unbooking "bob" [⟨1, 0, 10, "flat viewing", "alice"⟩] 1).1 :=
  (C10_no_ownership_enforcement "bob" "alice" [⟨1, 0, 10, "flat viewing", "alice"⟩] 1 1 1).2.2
    ⟨1, 0, 10, "flat viewing", "alice"⟩ (by decide) rfl

/-- Claim C8: the future listing returns exactly the caller's bookings whose
`end_time` is strictly after `now` (so `end_time <= now` is excluded and
`end_time = now + 1` is included), ordered ascending by `start_time`. -/
theorem C8_future_only_user_listing (rows : List Booking) (u : String) (now : Int) :
    (∀ b, b ∈ get_all_future_user_bookings rows u now ↔
      (b ∈ rows ∧ b.user_id = u ∧ now < b.end_time)) ∧
    (get_all_future_user_bookings rows u now).Pairwise
      (fun a b => a.start_time ≤ b.start_time) := by
  constructor
  · intro b
    unfold get_all_future_user_bookings
    rw [(List.perm_insertionSort _ _).mem_iff, List.mem_filter]
    simp [and_assoc]
  · unfold get_all_future_user_bookings
    haveI : IsTotal Booking (fun a b => a.start_time ≤ b.start_time) :=
      ⟨fun a b => le_total _ _⟩
    haveI : IsTrans Booking (fun a b => a.start_time ≤ b.start_time) :=
      ⟨fun a b c h1 h2 => le_trans h1 h2⟩
    exact List.sorted_insertionSort _ _

/-- Witness for C8: with `now = 100`, dave's booking ending at 100 is
excluded and the one ending at 101 is included. -/
theorem C8_future_only_user_listing_witness :
    ((⟨2, 5, 101, "attic", "dave"⟩ : Booking) ∈
      get_all_future_user_bookings
        [⟨1, 0, 100, "cellar", "dave"⟩, ⟨2, 5, 101, "attic", "dave"⟩, ⟨3, 7, 300, "roof", "erin"⟩]
        "dave" 100) ∧
    ¬ ((⟨1, 0, 100, "cellar", "dave"⟩ : Booking) ∈
      get_all_future_user_bookings
        [⟨1, 0, 100, "cellar", "dave"⟩, ⟨2, 5, 101, "attic", "dave"⟩, ⟨3, 7, 300, "roof", "erin"⟩]
        "dave" 100) :=
  ⟨((C8_future_only_user_listing
      [⟨1, 0, 100, "cellar", "dave"⟩, ⟨2, 5, 101, "attic", "dave"⟩, ⟨3, 7, 300, "roof", "erin"⟩]
      "dave" 100).1 _).mpr (by decide),
   fun hmem => by
    have h2 := ((C8_future_only_user_listing
      [⟨1, 0, 100, "cellar", "dave"⟩, ⟨2, 5, 101, "attic", "dave"⟩, ⟨3, 7, 300, "roof", "erin"⟩]
      "dave" 100).1 _).mp hmem
    exact absurd h2 (by decide)⟩

/-- One loop iteration of `bookings_to_view_json` keeps the property that the
second slot is only filled once the first slot is. -/
theorem viewStep_second_implies_first {now : Int} (st : ViewInformation) (b : Booking)
    (h : st.second_coming_booking.isSome = true → st.first_coming_booking.isSome = true) :
    (viewStep now st b).second_coming_booking.isSome = true →
      (viewStep now st b).first_coming_booking.isSome = true := by
  unfold viewStep
  split_ifs with h1 h2 h3
  · simpa using h
  · simp
  · intro h4
    cases hfc : st.first_coming_booking with
    | none => rw [hfc] at h2; simp at h2
    | some x => simp
  · exact h

/-- The whole loop of `bookings_to_view_json` keeps the slot-order property. -/
theorem foldl_second_implies_first (now : Int) :
    ∀ (bs : List Booking) (st : ViewInformation),
      (st.second_coming_booking.isSome = true → st.first_coming_booking.isSome = true) →
      ((bs.foldl (viewStep now) st).second_coming_booking.isSome = true →
        (bs.foldl (viewStep now) st).first_coming_booking.isSome = true) := by
  intro bs
  induction bs with
  | nil => intro st h; exact h
  | cons b bs ih =>
    intro st h
    rw [List.foldl_cons]
    exact ih _ (viewStep_second_implies_first st b h)

/-- Inserting an element in the middle of an append adds it to the multiset. -/
theorem coe_append_middle (c s : List Booking) (b : Booking) :
    (↑(c ++ [b] ++ s) : Multiset Booking) = ↑(c ++ s) + {b} := by
  rw [← Multiset.coe_singleton, Multiset.coe_add, Multiset.coe_eq_coe,
    List.append_assoc, List.append_assoc]
  exact List.Perm.append_left c List.perm_append_comm

/-- One loop iteration adds at most the consumed booking to the filled
slots (as a multiset). -/
theorem filledSlots_viewStep_le (now : Int) (st : ViewInformation) (b : Booking) :
    (↑(filledSlots (viewStep now st b)) : Multiset Booking) ≤ ↑(filledSlots st) + {b} := by
  unfold viewStep filledSlots
  split_ifs with h1 h2 h3
  · have h1c := h1
    simp only [Bool.and_eq_true] at h1c
    have hc : st.current_booking = none := Option.isNone_iff_eq_none.mp h1c.1
    apply le_of_eq
    rw [hc]
    simpa using coe_append_middle [] (st.first_coming_booking.toList ++
      st.second_coming_booking.toList) b
  · have hc : st.first_coming_booking = none := Option.isNone_iff_eq_none.mp h2
    apply le_of_eq
    rw [hc]
    simpa using coe_append_middle st.current_booking.toList
      st.second_coming_booking.toList b
  · have hc : st.second_coming_booking = none := Option.isNone_iff_eq_none.mp h3
    apply le_of_eq
    rw [hc]
    simpa using coe_append_middle (st.current_booking.toList ++
      st.first_coming_booking.toList) [] b
  · exact le_add_right (le_refl _)

/-- The filled slots of the finished loop form a sub-multiset of the filled
slots of the starting state plus the input bookings. -/
theorem filledSlots_foldl_le (now : Int) :
    ∀ (bs : List Booking) (st : ViewInformation),
      (↑(filledSlots (bs.foldl (viewStep now) st)) : Multiset Booking) ≤
        ↑(filledSlots st) + ↑bs := by
  intro bs
  induction bs with
  | nil => intro st; simp
  | cons b bs ih =>
    intro st
    rw [List.foldl_cons]
    refine le_trans (ih (viewStep now st b)) ?_
    have h2 := add_le_add_right (filledSlots_viewStep_le now st b) (↑bs : Multiset Booking)
    refine le_trans h2 (le_of_eq ?_)
    rw [add_assoc, Multiset.singleton_add, Multiset.cons_coe]

/-- Claim C9: for every input list and instant, the snapshot fills the second
coming slot only if the first coming slot is filled, and (for an input
without duplicate rows) no single input booking occupies more than one of the
three slots. -/
theorem C9_snapshot_slot_invariant (bs : List Booking) (now : Int) :
    ((bookings_to_view_json now bs).second_coming_booking.isSome = true →
      (bookings_to_view_json now bs).first_coming_booking.isSome = true) ∧
    (bs.Nodup → (filledSlots (bookings_to_view_json now bs)).Nodup) := by
  constructor
  · exact foldl_second_implies_first now bs ⟨none, none, none⟩ (by simp)
  · intro hnd
    have hle := filledSlots_foldl_le now bs ⟨none, none, none⟩
    have hinit : (↑(filledSlots ⟨none, none, none⟩) : Multiset Booking) = 0 := rfl
    rw [hinit, zero_add] at hle
    have h2 := Multiset.nodup_of_le hle (Multiset.coe_nodup.mpr hnd)
    exact Multiset.coe_nodup.mp h2

/-- Witness for C9 on a three-booking snapshot at `now = 25` (the middle
booking is current, the others fill the coming slots): all three slots are
filled with pairwise distinct bookings. -/
theorem C9_snapshot_slot_invariant_witness :
    (bookings_to_view_json 25
      [⟨1, 0, 10, "cellar", "u"⟩, ⟨2, 20, 30, "attic", "u"⟩, ⟨3, 40, 50, "roof", "u"⟩]).first_coming_booking.isSome = true ∧
    (filledSlots (bookings_to_view_json 25
      [⟨1, 0, 10, "cellar", "u"⟩, ⟨2, 20, 30, "attic", "u"⟩, ⟨3, 40, 50, "roof", "u"⟩])).Nodup :=
  ⟨(C9_snapshot_slot_invariant
      [⟨1, 0, 10, "cellar", "u"⟩, ⟨2, 20, 30, "attic", "u"⟩, ⟨3, 40, 50, "roof", "u"⟩] 25).1
      (by decide),
   (C9_snapshot_slot_invariant
      [⟨1, 0, 10, "cellar", "u"⟩, ⟨2, 20, 30, "attic", "u"⟩, ⟨3, 40, 50, "roof", "u"⟩] 25).2
      (by decide)⟩

/-- Claim C2, as stated, is false: the loop tests
`current_timestamp in range(start_time, end_time)`, whose right bound is
exclusive, while the spec's intervals are closed.  A booking `[0,10]` at
`now = 10` is contained in the closed interval but is assigned to the first
coming slot, not to current. -/
theorem C2_counterexample :
    ¬ (∀ (bs : List Booking) (now : Int), bs.length ≤ 3 →
        bs.Pairwise (fun a b => a.start_time ≤ b.start_time) →
        (bookings_to_view_json now bs).current_booking =
          bs.find? (specClosedContains now)) := by
  intro h
  have h2 := h [⟨1, 0, 10, "cellar", "alice"⟩] 10 (by decide)
    (List.pairwise_singleton _ _)
  exact absurd h2 (by decide)

/-- Claim C2 (amended): for every time-ordered list of at most 3 bookings and
every instant `now`, the snapshot assigns as current the first booking with
`start_time <= now < end_time` (Python's `range(start_time, end_time)`
containment, end-exclusive); every booking not assigned to current fills the
first then the second coming slot in list order, a booking assigned to
current is never also assigned to a coming slot, and for the spec's example
(`[T-10,T+10]`, `[T+20,T+30]`, `[T+40,T+50]` at `now = T`) the result is
current = booking 1, next1 = booking 2, next2 = booking 3. -/
theorem C2_snapshot_projection (bs : List Booking) (now : Int)
    (hlen : bs.length ≤ 3)
    (hsorted : bs.Pairwise (fun a b => a.start_time ≤ b.start_time)) :
    (bookings_to_view_json now bs).current_booking =
      bs.find? (fun b => inRangeB now b.start_time b.end_time) ∧
    (bookings_to_view_json now bs).first_coming_booking =
      (bs.eraseP (fun b => inRangeB now b.start_time b.end_time)).get? 0 ∧
    (bookings_to_view_json now bs).second_coming_booking =
      (bs.eraseP (fun b => inRangeB now b.start_time b.end_time)).get? 1 := by
  rcases bs with _ | ⟨a, _ | ⟨b, _ | ⟨c, _ | ⟨d, t⟩⟩⟩⟩
  · exact ⟨rfl, rfl, rfl⟩
  · cases hpa : inRangeB now a.start_time a.end_time <;>
      simp [bookings_to_view_json, viewStep, hpa, List.eraseP_cons, List.find?_cons]
  · cases hpa : inRangeB now a.start_time a.end_time <;>
      cases hpb : inRangeB now b.start_time b.end_time <;>
      simp [bookings_to_view_json, viewStep, hpa, hpb, List.eraseP_cons, List.find?_cons]
  · cases hpa : inRangeB now a.start_time a.end_time <;>
      cases hpb : inRangeB now b.start_time b.end_time <;>
      cases hpc : inRangeB now c.start_time c.end_time <;>
      simp [bookings_to_view_json, viewStep, hpa, hpb, hpc, List.eraseP_cons, List.find?_cons]
  · simp at hlen

/-- Witness for C2 at the claim's example with `T = 0`: bookings
`[-10,10]`, `[20,30]`, `[40,50]` at `now = 0` yield current = booking 1,
first coming = booking 2, second coming = booking 3. -/
theorem C2_snapshot_projection_witness :
    (bookings_to_view_json 0
      [⟨1, -10, 10, "cellar", "u"⟩, ⟨2, 20, 30, "attic", "u"⟩, ⟨3, 40, 50, "roof", "u"⟩]).current_booking =
        some ⟨1, -10, 10, "cellar", "u"⟩ ∧
    (bookings_to_view_json 0
      [⟨1, -10, 10, "cellar", "u"⟩, ⟨2, 20, 30, "attic", "u"⟩, ⟨3, 40, 50, "roof", "u"⟩]).first_coming_booking =
        some ⟨2, 20, 30, "attic", "u"⟩ ∧
    (bookings_to_view_json 0
      [⟨1, -10, 10, "cellar", "u"⟩, ⟨2, 20, 30, "attic", "u"⟩, ⟨3, 40, 50, "roof", "u"⟩]).second_coming_booking =
        some ⟨3, 40, 50, "roof", "u"⟩ := by
  have h := C2_snapshot_projection
    [⟨1, -10, 10, "cellar", "u"⟩, ⟨2, 20, 30, "attic", "u"⟩, ⟨3, 40, 50, "roof", "u"⟩] 0
    (by decide) (by decide)
  exact ⟨h.1.trans (by decide), h.2.1.trans (by decide), h.2.2.trans (by decide)⟩

end ViewingBot
